import Mathlib

/-!
# Embedded-Miku audio recorder: a model of `audio_recorder.cpp`

The recorder object of `audio_recorder.cpp` is embedded as a record of its data
members, its member functions as functions on that record.  The ALSA library is
the environment: every library call the code makes is recorded in a call list,
and what the library answers is an explicit argument (`MixerReplies`,
`PcmOpenReplies`, `ReadReply`).  Return codes the source ignores are carried in
the replies and ignored by the model in the same way.

Machine integers: `int` and `long` values are `Int`, `unsigned long` values are
`Nat`.  Two places can leave the range of their type: the `long` product
`volume * max` of `setVolume` and the cast `(long)playbackBufferSize` of the
capture loop.  Both are reduced to the two's complement range of a `w`-bit
`long`, `w` being a parameter of the model (32 or 64 on the usual Linux
targets).  Heap allocation (`new short[...]`) is taken to succeed.
-/

namespace AudioRecorderModel

/-! ## Constants -/

/-- `#define DEFAULT_VOLUME 80` -/
def DEFAULT_VOLUME : Int := 80

/-- `#define SAMPLE_RATE 44100` -/
def SAMPLE_RATE : Nat := 44100

/-- `#define NUM_CHANNELS 1` -/
def NUM_CHANNELS : Nat := 1

/-- `#define SAMPLE_SIZE (sizeof(short))` -/
def SAMPLE_SIZE : Nat := 2

/-- Modelled from the spec: `AUDIORECORDER_MAX_VOLUME` is declared in
`audio_recorder.h`, which is not among the sources.  The spec fixes the maximum
volume at 100, as does the text of the error message of `setVolume`. -/
def AUDIORECORDER_MAX_VOLUME : Int := 100

/-! ## Machine integers -/

/-- Value of the integer `x` once stored in a `w`-bit two's complement signed
type: the representative of `x` modulo `2 ^ w` in `[-2 ^ (w-1), 2 ^ (w-1))`. -/
def wrapSigned (w : Nat) (x : Int) : Int :=
  (x + 2 ^ w / 2) % 2 ^ w - 2 ^ w / 2

/-- `LONG_MIN` of a `w`-bit `long`. -/
def LONG_MIN (w : Nat) : Int := -(2 ^ w / 2)

/-- `LONG_MAX` of a `w`-bit `long`. -/
def LONG_MAX (w : Nat) : Int := 2 ^ w / 2 - 1

/-- The cast `(long)n` of an `unsigned long` value. -/
def toLong (w : Nat) (n : Nat) : Int := wrapSigned w (n : Int)

/-- The narrowing of a `long` to the `int` parameter of `snd_pcm_recover`. -/
def toInt (x : Int) : Int := wrapSigned 32 x

/-! ## Data -/

/-- One `short` slot of a buffer; `none` is a slot never written since
`new short[...]` (indeterminate value). -/
abbrev Sample := Option Int

/-- A heap array of `short`, as pointed to by the `short *` held in the queue. -/
abbrev Buffer := List Sample

/-- `new short[n]`: `n` slots, none of them written. -/
def newBuffer (n : Nat) : Buffer := List.replicate n none

/-- The buffer after the device has stored the samples `data` at its start.  The
device stores no more samples than the buffer holds. -/
def storeSamples (buf : Buffer) (data : List Int) : Buffer :=
  (data.take buf.length).map some ++ buf.drop data.length

/-- The data members of `class AudioRecorder` that carry values: `sndQueue`
(head of the list is the front of the queue), `volume`, `playbackBufferSize`.
The device handle and the thread object are resources of the environment. -/
structure AudioRecorder where
  sndQueue : List Buffer
  volume : Int
  playbackBufferSize : Nat
deriving DecidableEq

/-- What the mixer library answers during one `setVolume` call: the return codes
of the calls (all ignored by the source), the element found (`none` for `NULL`),
and the values held by `min` and `max` after the range query. -/
structure MixerReplies where
  openErr : Int
  attachErr : Int
  registerErr : Int
  loadErr : Int
  elem : Option Nat
  rangeErr : Int
  min : Int
  max : Int
  setErr : Int
  closeErr : Int
deriving DecidableEq

/-- The mixer library calls of `setVolume`, with the arguments that vary. -/
inductive MixerCall where
  | mixerOpen
  | mixerAttach (card : String)
  | selemRegister
  | mixerLoad
  | findSelem (index : Nat) (name : String)
  | getPlaybackVolumeRange (elem : Option Nat)
  | setPlaybackVolumeAll (elem : Option Nat) (value : Int)
  | mixerClose
deriving DecidableEq

/-- The PCM library calls of the capture loop. -/
inductive PcmCall where
  | readi (size : Nat)
  | recover (err : Int) (silent : Int)
deriving DecidableEq

/-- Lines written to the standard output or the standard error stream. -/
inductive Output where
  /-- `ERROR: Volume must be between 0 and 100.` -/
  | volumeError
  /-- `Playback open error: ...` -/
  | playbackOpenError (err : Int)
  /-- `AudioMixer: readi() returned <frames>` -/
  | readiReturned (frames : Int)
  /-- `ERROR: Failed writing audio with snd_pcm_readi(): <frames>` -/
  | failedWriting (frames : Int)
  /-- `Short write (expected <expected>, wrote <wrote>)` -/
  | shortWrite (expected : Nat) (wrote : Int)
deriving DecidableEq

/-! ## `getVolume`, `getFrameSize` -/

/-- `int getVolume() const { return volume; }` -/
def getVolume (s : AudioRecorder) : Int := s.volume

/-- `unsigned long getFrameSize() const { return playbackBufferSize; }` -/
def getFrameSize (s : AudioRecorder) : Nat := s.playbackBufferSize

/-! ## `setVolume` -/

/-- The expression `volume * max / 100` of `setVolume`: `volume` is converted to
`long`, the product is a `w`-bit `long`, the division truncates towards zero. -/
def scaledVolume (w : Nat) (volume max : Int) : Int :=
  Int.tdiv (wrapSigned w (volume * max)) 100

/-- Result of one `setVolume` call. -/
structure SetVolumeResult where
  state : AudioRecorder
  out : List Output
  mixerCalls : List MixerCall
deriving DecidableEq

/-- `void AudioRecorder::setVolume(int newVolume)` -/
def setVolume (w : Nat) (m : MixerReplies) (s : AudioRecorder) (newVolume : Int) :
    SetVolumeResult :=
  if newVolume < 0 ∨ newVolume > AUDIORECORDER_MAX_VOLUME then
    ⟨s, [Output.volumeError], []⟩
  else
    let s1 : AudioRecorder := ⟨s.sndQueue, newVolume, s.playbackBufferSize⟩
    ⟨s1, [],
      [MixerCall.mixerOpen,
       MixerCall.mixerAttach "default",
       MixerCall.selemRegister,
       MixerCall.mixerLoad,
       MixerCall.findSelem 0 "PCM",
       MixerCall.getPlaybackVolumeRange m.elem,
       MixerCall.setPlaybackVolumeAll m.elem (scaledVolume w s1.volume m.max),
       MixerCall.mixerClose]⟩

/-- The value handed to `snd_mixer_selem_set_playback_volume_all`, read off a
call list (`none` when the list has no such call). -/
def appliedValue : List MixerCall → Option Int
  | [] => none
  | MixerCall.setPlaybackVolumeAll _ v :: _ => some v
  | _ :: cs => appliedValue cs

/-- The raw value one `setVolume` call applies to the "PCM" element. -/
def rawApplied (w : Nat) (m : MixerReplies) (s : AudioRecorder) (newVolume : Int) :
    Option Int :=
  appliedValue (setVolume w m s newVolume).mixerCalls

/-- The mixer applied the value: every call reported success and the "PCM"
element was found. -/
def MixerReplies.applied (m : MixerReplies) : Prop :=
  0 ≤ m.openErr ∧ 0 ≤ m.attachErr ∧ 0 ≤ m.registerErr ∧ 0 ≤ m.loadErr ∧
    m.elem ≠ none ∧ 0 ≤ m.rangeErr ∧ 0 ≤ m.setErr

instance (m : MixerReplies) : Decidable m.applied := by
  unfold MixerReplies.applied; infer_instance

/-! ## Constructor -/

/-- What the PCM library answers to the constructor: the return codes of
`snd_pcm_open` and `snd_pcm_set_params`, and the two values `snd_pcm_get_params`
stores through its pointer arguments (`none` when it stores nothing), named after
the variables of the source that receive them. -/
structure PcmOpenReplies where
  openErr : Int
  setParamsErr : Int
  getParams : Option (Nat × Nat)
deriving DecidableEq

/-- Result of the constructor: `recorder` is `none` when the constructor ended
in `exit(EXIT_FAILURE)`. -/
structure NewResult where
  recorder : Option AudioRecorder
  out : List Output
  mixerCalls : List MixerCall
deriving DecidableEq

/-- `AudioRecorder::AudioRecorder()`.  The capture thread launched by the last
statement runs `recordingThread` on the recorder returned here. -/
def AudioRecorder.new (w : Nat) (m : MixerReplies) (p : PcmOpenReplies) : NewResult :=
  let s0 : AudioRecorder := ⟨[], 0, 0⟩
  let r := setVolume w m s0 DEFAULT_VOLUME
  if p.openErr < 0 then
    ⟨none, r.out ++ [Output.playbackOpenError p.openErr], r.mixerCalls⟩
  else if p.setParamsErr < 0 then
    ⟨none, r.out ++ [Output.playbackOpenError p.setParamsErr], r.mixerCalls⟩
  else
    match p.getParams with
    | none => ⟨some r.state, r.out, r.mixerCalls⟩
    | some (_unusedBufferSize, playbackBufferSize) =>
      ⟨some ⟨r.state.sndQueue, r.state.volume, playbackBufferSize⟩, r.out, r.mixerCalls⟩

/-! ## `getNextAudioReading` -/

/-- `short *AudioRecorder::getNextAudioReading()`: the front of the queue, which
is removed.  On an empty queue `front()` has no defined behaviour: `none`. -/
def getNextAudioReading (s : AudioRecorder) : Option (Buffer × AudioRecorder) :=
  match s.sndQueue with
  | [] => none
  | b :: rest => some (b, ⟨rest, s.volume, s.playbackBufferSize⟩)

/-- The first `k` results of successive `getNextAudioReading` calls, with the
recorder after them. -/
def readings : Nat → AudioRecorder → Option (List Buffer × AudioRecorder)
  | 0, s => some ([], s)
  | k + 1, s =>
    match getNextAudioReading s with
    | none => none
    | some (b, s1) =>
      match readings k s1 with
      | none => none
      | some (bs, s2) => some (b :: bs, s2)

/-! ## `recordingThread` -/

/-- `sndQueue.push(buffer)`: the buffer becomes the back of the queue. -/
def sndQueuePush (s : AudioRecorder) (b : Buffer) : AudioRecorder :=
  ⟨s.sndQueue ++ [b], s.volume, s.playbackBufferSize⟩

/-- What the PCM library answers during one iteration of the capture loop: the
value returned by `snd_pcm_readi`, the samples it stored in the buffer, and the
value `snd_pcm_recover` returns if it is called. -/
structure ReadReply where
  frames : Int
  data : List Int
  recovered : Int
deriving DecidableEq

/-- Result of one iteration of the loop of `recordingThread`.  `exited` is set
when the iteration ended in `exit(EXIT_FAILURE)`; `state` is the recorder at the
end of the iteration, or at the `exit` call. -/
structure IterResult where
  state : AudioRecorder
  exited : Bool
  pcmCalls : List PcmCall
  out : List Output
deriving DecidableEq

/-- The buffer an iteration holds after `new short[size]` and its
`snd_pcm_readi` call. -/
def capturedBuffer (size : Nat) (r : ReadReply) : Buffer :=
  storeSamples (newBuffer size) r.data

/-- The body of the `while (true)` loop of `AudioRecorder::recordingThread`. -/
def recordingThreadBody (w : Nat) (s : AudioRecorder) (r : ReadReply) : IterResult :=
  let buffer := capturedBuffer s.playbackBufferSize r
  let frames0 := r.frames
  let calls0 := [PcmCall.readi s.playbackBufferSize]
  -- if (frames < 0) { fprintf(...); frames = snd_pcm_recover(handle, frames, 1); }
  let frames1 := if frames0 < 0 then r.recovered else frames0
  let calls1 := if frames0 < 0 then calls0 ++ [PcmCall.recover (toInt frames0) 1] else calls0
  let out1 := if frames0 < 0 then [Output.readiReturned frames0] else []
  -- if (frames < 0) { fprintf(...); exit(EXIT_FAILURE); }
  if frames1 < 0 then
    ⟨s, true, calls1, out1 ++ [Output.failedWriting frames1]⟩
  else
    -- if (frames > 0 && frames < (long)playbackBufferSize) { printf(...); }
    let out2 :=
      if 0 < frames1 ∧ frames1 < toLong w s.playbackBufferSize then
        out1 ++ [Output.shortWrite s.playbackBufferSize frames1]
      else out1
    ⟨sndQueuePush s buffer, false, calls1, out2⟩

/-- Whether a PCM call is a `snd_pcm_recover` call. -/
def PcmCall.isRecover : PcmCall → Bool
  | PcmCall.recover _ _ => true
  | PcmCall.readi _ => false

/-- `AudioRecorder::recordingThread()` run against the successive replies of the
device: `none` once an iteration has ended the process, else the recorder after
the last reply. -/
def recordingThread (w : Nat) : AudioRecorder → List ReadReply → Option AudioRecorder
  | s, [] => some s
  | s, r :: rs =>
    let res := recordingThreadBody w s r
    if res.exited then none else recordingThread w res.state rs

/-! ## Operation sequences -/

/-- One operation on a constructed recorder, with the replies of the library. -/
inductive Op where
  | capture (r : ReadReply)
  | nextReading
  | setVol (newVolume : Int) (m : MixerReplies)
deriving DecidableEq

/-- The recorder after one operation; `none` when the process has ended or the
operation has no defined behaviour (reading from an empty queue). -/
def stepOp (w : Nat) (s : AudioRecorder) : Op → Option AudioRecorder
  | Op.capture r =>
    let res := recordingThreadBody w s r
    if res.exited then none else some res.state
  | Op.nextReading => (getNextAudioReading s).map Prod.snd
  | Op.setVol v m => some (setVolume w m s v).state

/-- The recorder after a sequence of operations. -/
def runOps (w : Nat) : AudioRecorder → List Op → Option AudioRecorder
  | s, [] => some s
  | s, o :: os =>
    match stepOp w s o with
    | none => none
    | some s1 => runOps w s1 os

/-! ## Concrete environments used in the examples below -/

/-- A mixer whose "PCM" element exists and has the raw range 0..255. -/
def mixerOk : MixerReplies := ⟨0, 0, 0, 0, some 1, 0, 0, 255, 0, 0⟩

/-- A mixer without a "PCM" element: the lookup yields `NULL`, the range query
and the volume call fail with `-EINVAL`. -/
def mixerNoElem : MixerReplies := ⟨0, 0, 0, 0, none, -22, 0, 0, -22, 0⟩

/-- A mixer whose raw range 10..100 starts above zero. -/
def mixerPositiveMin : MixerReplies := ⟨0, 0, 0, 0, some 1, 0, 10, 100, 0, 0⟩

/-- A mixer whose raw range -100..-50 lies below zero. -/
def mixerNegativeMax : MixerReplies := ⟨0, 0, 0, 0, some 1, 0, -100, -50, 0, 0⟩

/-- A mixer whose raw range 0..LONG_MAX (64-bit) makes `100 * max` overflow. -/
def mixerHugeMax : MixerReplies := ⟨0, 0, 0, 0, some 1, 0, 0, 9223372036854775807, 0, 0⟩

/-- A device that opens and reports 8192 and 2048 through `snd_pcm_get_params`. -/
def pcmOk : PcmOpenReplies := ⟨0, 0, some (8192, 2048)⟩

/-- A device that opens and reports 16 and 4 through `snd_pcm_get_params`. -/
def pcmSmall : PcmOpenReplies := ⟨0, 0, some (16, 4)⟩

/-- A recorder with volume 80, frame size 2048 and an empty queue. -/
def recorder80 : AudioRecorder := ⟨[], 80, 2048⟩

/-- A recorder with volume 80, frame size 4 and an empty queue. -/
def recorderSmall : AudioRecorder := ⟨[], 80, 4⟩

/-- A full read, a volume change, a failed read that is recovered, a short read,
a rejected volume change and one reading taken from the queue. -/
def sampleOps : List Op :=
  [Op.capture ⟨4, [11, 12, 13, 14], 0⟩, Op.setVol 50 mixerOk, Op.capture ⟨-32, [], 0⟩,
   Op.capture ⟨2, [21, 22], 0⟩, Op.setVol 150 mixerOk, Op.nextReading]

/-- The recorder `sampleOps` leads to from `recorderSmall`. -/
def recorderAfterSampleOps : AudioRecorder :=
  ⟨[[none, none, none, none], [some 21, some 22, none, none]], 50, 4⟩

/-! ## Lemmas on machine integers and on the scaled volume -/

theorem wrapSigned_of_fits (w : Nat) (x : Int) (h1 : LONG_MIN w ≤ x)
    (h2 : x ≤ LONG_MAX w) : wrapSigned w x = x := by
  unfold LONG_MIN at h1
  unfold LONG_MAX at h2
  unfold wrapSigned
  cases w with
  | zero => simp at h1 h2; omega
  | succ k =>
    have hp : (2 : Int) ^ (k + 1) = 2 * 2 ^ k := by ring
    have hk : (0 : Int) < 2 ^ k := by positivity
    rw [hp] at h1 h2 ⊢
    generalize (2 : Int) ^ k = t at *
    have hd : 2 * t / 2 = t := by omega
    rw [hd] at h1 h2 ⊢
    rw [Int.emod_eq_of_lt (by omega) (by omega)]
    omega

theorem LONG_MIN_nonpos (w : Nat) : LONG_MIN w ≤ 0 := by
  unfold LONG_MIN
  have : (0 : Int) ≤ 2 ^ w / 2 := Int.ediv_nonneg (by positivity) (by norm_num)
  omega

theorem scaledVolume_of_fits (w : Nat) (p max : Int) (h0 : 0 ≤ p * max)
    (h : p * max ≤ LONG_MAX w) : scaledVolume w p max = p * max / 100 := by
  unfold scaledVolume
  rw [wrapSigned_of_fits w _ (le_trans (LONG_MIN_nonpos w) h0) h]
  exact Int.tdiv_eq_ediv h0 (by norm_num)

theorem scaledVolume_zero (w : Nat) (max : Int) : scaledVolume w 0 max = 0 := by
  unfold scaledVolume wrapSigned
  have hpos : (0 : Int) < 2 ^ w := by positivity
  have h0 : (0 : Int) ≤ 2 ^ w / 2 := Int.ediv_nonneg (le_of_lt hpos) (by norm_num)
  have hlt : (2 : Int) ^ w / 2 < 2 ^ w := by omega
  rw [zero_mul, zero_add, Int.emod_eq_of_lt h0 hlt, sub_self]
  rfl

theorem scaledVolume_bounds (w : Nat) (p max : Int) (hp0 : 0 ≤ p) (hp1 : p ≤ 100)
    (hmax : 0 ≤ max) (h : p * max ≤ LONG_MAX w) :
    0 ≤ scaledVolume w p max ∧ scaledVolume w p max ≤ max := by
  have h0 : 0 ≤ p * max := mul_nonneg hp0 hmax
  rw [scaledVolume_of_fits w p max h0 h]
  constructor
  · exact Int.ediv_nonneg h0 (by norm_num)
  · have hle : p * max ≤ 100 * max := mul_le_mul_of_nonneg_right hp1 hmax
    have := Int.ediv_le_ediv (by norm_num : (0 : Int) < 100) hle
    rwa [Int.mul_ediv_cancel_left max (by norm_num : (100 : Int) ≠ 0)] at this

theorem setVolume_valid (w : Nat) (m : MixerReplies) (s : AudioRecorder) (p : Int)
    (h0 : 0 ≤ p) (h1 : p ≤ 100) :
    setVolume w m s p =
      ⟨⟨s.sndQueue, p, s.playbackBufferSize⟩, [],
        [MixerCall.mixerOpen, MixerCall.mixerAttach "default", MixerCall.selemRegister,
         MixerCall.mixerLoad, MixerCall.findSelem 0 "PCM",
         MixerCall.getPlaybackVolumeRange m.elem,
         MixerCall.setPlaybackVolumeAll m.elem (scaledVolume w p m.max),
         MixerCall.mixerClose]⟩ := by
  unfold setVolume AUDIORECORDER_MAX_VOLUME
  rw [if_neg (by omega)]

theorem setVolume_invalid (w : Nat) (m : MixerReplies) (s : AudioRecorder) (p : Int)
    (h : p < 0 ∨ 100 < p) : setVolume w m s p = ⟨s, [Output.volumeError], []⟩ := by
  unfold setVolume AUDIORECORDER_MAX_VOLUME
  rw [if_pos (by omega)]

theorem rawApplied_valid (w : Nat) (m : MixerReplies) (s : AudioRecorder) (p : Int)
    (h0 : 0 ≤ p) (h1 : p ≤ 100) : rawApplied w m s p = some (scaledVolume w p m.max) := by
  unfold rawApplied
  rw [setVolume_valid w m s p h0 h1]
  rfl

theorem new_recorder (w : Nat) (m : MixerReplies) (p : PcmOpenReplies) (s0 : AudioRecorder)
    (h : (AudioRecorder.new w m p).recorder = some s0) :
    s0 = ⟨[], 80, (p.getParams.map Prod.snd).getD 0⟩ := by
  unfold AudioRecorder.new at h
  dsimp only at h
  rw [setVolume_valid w m _ DEFAULT_VOLUME (by decide) (by decide)] at h
  by_cases h1 : p.openErr < 0
  · rw [if_pos h1] at h; cases h
  · rw [if_neg h1] at h
    by_cases h2 : p.setParamsErr < 0
    · rw [if_pos h2] at h; cases h
    · rw [if_neg h2] at h
      cases hg : p.getParams with
      | none =>
        rw [hg] at h
        exact (Option.some.inj h).symm
      | some bp =>
        rw [hg] at h
        exact (Option.some.inj h).symm

/-! ## Volume control -/

/-- Claim C1.  For every recorder state, every `long` width, every reply of the
mixer and every percent with 0 <= percent <= 100, `getVolume()` after
`setVolume(percent)` returns percent. -/
theorem setVolume_then_getVolume (w : Nat) (m : MixerReplies) (s : AudioRecorder)
    (percent : Int) (h0 : 0 ≤ percent) (h1 : percent ≤ 100) :
    getVolume (setVolume w m s percent).state = percent := by
  rw [setVolume_valid w m s percent h0 h1]
  rfl

theorem setVolume_then_getVolume_witness :
    (0 : Int) ≤ 37 ∧ (37 : Int) ≤ 100 ∧
      getVolume (setVolume 64 mixerNoElem recorder80 37).state = 37 :=
  ⟨by decide, by decide,
    setVolume_then_getVolume 64 mixerNoElem recorder80 37 (by decide) (by decide)⟩

/-- Claim C2.  For every recorder state and every percent below 0 or above 100,
`setVolume(percent)` writes the error message and nothing else, makes no mixer
call and leaves the recorder, hence the value of `getVolume()`, unchanged; on a
freshly constructed recorder `getVolume()` is 80 before and after
`setVolume(150)`. -/
theorem setVolume_out_of_range (w : Nat) (m : MixerReplies) (s : AudioRecorder)
    (percent : Int) (h : percent < 0 ∨ 100 < percent) :
    (setVolume w m s percent).out = [Output.volumeError] ∧
      (setVolume w m s percent).mixerCalls = [] ∧
      (setVolume w m s percent).state = s ∧
      getVolume (setVolume w m s percent).state = getVolume s ∧
      (∀ (m0 : MixerReplies) (p : PcmOpenReplies) (s0 : AudioRecorder),
        (AudioRecorder.new w m0 p).recorder = some s0 →
          getVolume s0 = 80 ∧ getVolume (setVolume w m s0 150).state = 80) := by
  rw [setVolume_invalid w m s percent h]
  refine ⟨rfl, rfl, rfl, rfl, ?_⟩
  intro m0 p s0 hs0
  rw [setVolume_invalid w m s0 150 (by decide)]
  rw [new_recorder w m0 p s0 hs0]
  exact ⟨rfl, rfl⟩

theorem setVolume_out_of_range_witness :
    ((150 : Int) < 0 ∨ (100 : Int) < 150) ∧
      (AudioRecorder.new 64 mixerOk pcmOk).recorder = some recorder80 ∧
      (setVolume 64 mixerOk recorder80 150).out = [Output.volumeError] ∧
      (setVolume 64 mixerOk recorder80 150).mixerCalls = [] ∧
      getVolume (setVolume 64 mixerOk recorder80 150).state = 80 :=
  ⟨by decide, by decide,
    (setVolume_out_of_range 64 mixerOk recorder80 150 (by decide)).1,
    (setVolume_out_of_range 64 mixerOk recorder80 150 (by decide)).2.1,
    ((setVolume_out_of_range 64 mixerOk recorder80 150 (by decide)).2.2.2.2
      mixerOk pcmOk recorder80 (by decide)).2⟩

/-- Claim C5, as stated, fails: the value applied is `percent * max / 100`,
which ignores `min`.  With the range 10..100 and percent 0 the value 0 is below
`min`; with the range -100..-50 and percent 50 the value -25 is above `max`; with
the range 0..LONG_MAX on a 64-bit `long` and percent 100 the product wraps and the
value -1 is below `min`. -/
theorem rawApplied_outside_range :
    (mixerPositiveMin.min ≤ mixerPositiveMin.max ∧
      rawApplied 64 mixerPositiveMin recorder80 0 = some 0 ∧
      (0 : Int) < mixerPositiveMin.min) ∧
    (mixerNegativeMax.min ≤ mixerNegativeMax.max ∧
      rawApplied 64 mixerNegativeMax recorder80 50 = some (-25) ∧
      mixerNegativeMax.max < (-25 : Int)) ∧
    (mixerHugeMax.min ≤ mixerHugeMax.max ∧
      rawApplied 64 mixerHugeMax recorder80 100 = some (-1) ∧
      (-1 : Int) < mixerHugeMax.min) := by
  decide

/-- Claim C5, amended.  For every percent in [0,100] and every reported range
with min <= 0 <= max for which percent * max is at most `LONG_MAX`, `setVolume`
applies a raw value, namely `percent * max / 100`, and min <= raw <= max. -/
theorem rawApplied_within_range (w : Nat) (m : MixerReplies) (s : AudioRecorder)
    (percent : Int) (h0 : 0 ≤ percent) (h1 : percent ≤ 100) (hmin : m.min ≤ 0)
    (hmax : 0 ≤ m.max) (hfit : percent * m.max ≤ LONG_MAX w) :
    ∃ raw : Int, rawApplied w m s percent = some raw ∧
      raw = percent * m.max / 100 ∧ m.min ≤ raw ∧ raw ≤ m.max := by
  refine ⟨scaledVolume w percent m.max, rawApplied_valid w m s percent h0 h1, ?_, ?_, ?_⟩
  · exact scaledVolume_of_fits w percent m.max (mul_nonneg h0 hmax) hfit
  · exact le_trans hmin (scaledVolume_bounds w percent m.max h0 h1 hmax hfit).1
  · exact (scaledVolume_bounds w percent m.max h0 h1 hmax hfit).2

theorem rawApplied_within_range_witness :
    (0 : Int) ≤ 50 ∧ (50 : Int) ≤ 100 ∧ mixerOk.min ≤ 0 ∧ 0 ≤ mixerOk.max ∧
      50 * mixerOk.max ≤ LONG_MAX 32 ∧
      ∃ raw : Int, rawApplied 32 mixerOk recorder80 50 = some raw ∧
        raw = 50 * mixerOk.max / 100 ∧ mixerOk.min ≤ raw ∧ raw ≤ mixerOk.max :=
  ⟨by decide, by decide, by decide, by decide, by decide,
    rawApplied_within_range 32 mixerOk recorder80 50 (by decide) (by decide) (by decide)
      (by decide) (by decide)⟩

/-- Claim C6, as stated, fails: with volume 80 cached and a mixer that has no
"PCM" element, so that nothing is applied, `setVolume(50)` leaves 50 in the
cache. -/
theorem setVolume_caches_before_applying :
    ¬ mixerNoElem.applied ∧ getVolume recorder80 = 80 ∧
      getVolume (setVolume 64 mixerNoElem recorder80 50).state = 50 := by
  decide

/-- Claim C6, amended.  `setVolume` caches the volume as soon as it has passed
the range check, before the first mixer call: for every percent in [0,100] and
every reply of the mixer that is not a successful application, `getVolume()`
returns percent after `setVolume(percent)`, and the mixer calls were made. -/
theorem setVolume_caches_on_validation (w : Nat) (m : MixerReplies) (s : AudioRecorder)
    (percent : Int) (h0 : 0 ≤ percent) (h1 : percent ≤ 100) (_hfail : ¬ m.applied) :
    getVolume (setVolume w m s percent).state = percent ∧
      (setVolume w m s percent).out = [] ∧
      rawApplied w m s percent = some (scaledVolume w percent m.max) := by
  refine ⟨?_, ?_, rawApplied_valid w m s percent h0 h1⟩
  · rw [setVolume_valid w m s percent h0 h1]; rfl
  · rw [setVolume_valid w m s percent h0 h1]

theorem setVolume_caches_on_validation_witness :
    (0 : Int) ≤ 50 ∧ (50 : Int) ≤ 100 ∧ ¬ mixerNoElem.applied ∧
      getVolume (setVolume 64 mixerNoElem recorder80 50).state = 50 ∧
      (setVolume 64 mixerNoElem recorder80 50).out = [] ∧
      rawApplied 64 mixerNoElem recorder80 50 = some (scaledVolume 64 50 mixerNoElem.max) :=
  ⟨by decide, by decide, by decide,
    setVolume_caches_on_validation 64 mixerNoElem recorder80 50 (by decide) (by decide)
      (by decide)⟩

/-- Claim C10.  For every maximum max >= 0, the raw value `volume * max / 100`
of `setVolume` (truncating division) is non-decreasing in percent over [0,100]
as long as the product does not exceed `LONG_MAX`, is 0 at percent 0, is max at
percent 100, and lies in [0, max] for every percent in [0,100]. -/
theorem scaledVolume_monotone (w : Nat) (max : Int) (hmax : 0 ≤ max) :
    (∀ p q : Int, 0 ≤ p → p ≤ q → q ≤ 100 → q * max ≤ LONG_MAX w →
      scaledVolume w p max ≤ scaledVolume w q max) ∧
    scaledVolume w 0 max = 0 ∧
    (100 * max ≤ LONG_MAX w → scaledVolume w 100 max = max) ∧
    (∀ p : Int, 0 ≤ p → p ≤ 100 → p * max ≤ LONG_MAX w →
      0 ≤ scaledVolume w p max ∧ scaledVolume w p max ≤ max) ∧
    (∀ (m : MixerReplies) (s : AudioRecorder) (p : Int), 0 ≤ p → p ≤ 100 →
      rawApplied w m s p = some (scaledVolume w p m.max)) := by
  refine ⟨?_, scaledVolume_zero w max, ?_, ?_, ?_⟩
  · intro p q hp hpq hq hfit
    have hle : p * max ≤ q * max := mul_le_mul_of_nonneg_right hpq hmax
    rw [scaledVolume_of_fits w p max (mul_nonneg hp hmax) (le_trans hle hfit),
      scaledVolume_of_fits w q max (mul_nonneg (le_trans hp hpq) hmax) hfit]
    exact Int.ediv_le_ediv (by norm_num) hle
  · intro hfit
    rw [scaledVolume_of_fits w 100 max (mul_nonneg (by norm_num) hmax) hfit]
    exact Int.mul_ediv_cancel_left max (by norm_num)
  · intro p hp0 hp1 hfit
    exact scaledVolume_bounds w p max hp0 hp1 hmax hfit
  · intro m s p hp0 hp1
    exact rawApplied_valid w m s p hp0 hp1

theorem scaledVolume_monotone_witness :
    (0 : Int) ≤ 255 ∧
      scaledVolume 32 0 255 = 0 ∧ scaledVolume 32 100 255 = 255 ∧
      scaledVolume 32 33 255 ≤ scaledVolume 32 34 255 :=
  ⟨by decide, (scaledVolume_monotone 32 255 (by decide)).2.1,
    (scaledVolume_monotone 32 255 (by decide)).2.2.1 (by decide),
    (scaledVolume_monotone 32 255 (by decide)).1 33 34 (by decide) (by decide) (by decide)
      (by decide)⟩

/-! ## Lemmas on buffers, the queue and the capture loop -/

theorem storeSamples_length (buf : Buffer) (data : List Int) :
    (storeSamples buf data).length = buf.length := by
  unfold storeSamples
  rw [List.length_append, List.length_map, List.length_take, List.length_drop]
  omega

theorem capturedBuffer_length (size : Nat) (r : ReadReply) :
    (capturedBuffer size r).length = size := by
  unfold capturedBuffer
  rw [storeSamples_length]
  exact List.length_replicate _ _

theorem toLong_of_fits (w : Nat) (n : Nat) (h : (n : Int) ≤ LONG_MAX w) :
    toLong w n = (n : Int) := by
  unfold toLong
  exact wrapSigned_of_fits w _ (le_trans (LONG_MIN_nonpos w) (Int.ofNat_nonneg n)) h

theorem body_exited_iff (w : Nat) (s : AudioRecorder) (r : ReadReply) :
    (recordingThreadBody w s r).exited = true ↔ (r.frames < 0 ∧ r.recovered < 0) := by
  unfold recordingThreadBody
  dsimp only
  by_cases hf : r.frames < 0
  · by_cases hr : r.recovered < 0
    · simp [hf, hr]
    · simp [hf, hr]
  · simp [hf]

theorem body_state_exited (w : Nat) (s : AudioRecorder) (r : ReadReply)
    (h : (recordingThreadBody w s r).exited = true) :
    (recordingThreadBody w s r).state = s := by
  have hfr := (body_exited_iff w s r).1 h
  unfold recordingThreadBody
  dsimp only
  simp [hfr.1, hfr.2]

theorem body_state_continues (w : Nat) (s : AudioRecorder) (r : ReadReply)
    (h : (recordingThreadBody w s r).exited = false) :
    (recordingThreadBody w s r).state = sndQueuePush s (capturedBuffer s.playbackBufferSize r) := by
  have hfr : ¬ (r.frames < 0 ∧ r.recovered < 0) := by
    intro hc
    rw [(body_exited_iff w s r).2 hc] at h
    cases h
  unfold recordingThreadBody
  dsimp only
  by_cases hf : r.frames < 0
  · have hr : ¬ r.recovered < 0 := fun hr => hfr ⟨hf, hr⟩
    simp [hf, hr]
  · simp [hf]

theorem body_pcmCalls (w : Nat) (s : AudioRecorder) (r : ReadReply) :
    (recordingThreadBody w s r).pcmCalls =
      if r.frames < 0 then
        [PcmCall.readi s.playbackBufferSize, PcmCall.recover (toInt r.frames) 1]
      else [PcmCall.readi s.playbackBufferSize] := by
  unfold recordingThreadBody
  dsimp only
  by_cases hf : r.frames < 0
  · by_cases hr : r.recovered < 0
    · simp [hf, hr]
    · simp [hf, hr]
  · simp [hf]

theorem countP_read_recover (n : Nat) (e c : Int) :
    [PcmCall.readi n, PcmCall.recover e c].countP PcmCall.isRecover = 1 := by
  simp [List.countP_cons, PcmCall.isRecover]

theorem countP_read (n : Nat) : [PcmCall.readi n].countP PcmCall.isRecover = 0 := by
  simp [List.countP_cons, PcmCall.isRecover]

theorem foldl_sndQueuePush (bs : List Buffer) (q : List Buffer) (v : Int) (n : Nat) :
    bs.foldl sndQueuePush ⟨q, v, n⟩ = ⟨q ++ bs, v, n⟩ := by
  induction bs generalizing q with
  | nil => simp
  | cons b bs ih =>
    have hpush : sndQueuePush ⟨q, v, n⟩ b = ⟨q ++ [b], v, n⟩ := rfl
    rw [List.foldl_cons, hpush, ih, List.append_assoc]
    rfl

theorem readings_append (q rest : List Buffer) (v : Int) (n : Nat) :
    readings q.length ⟨q ++ rest, v, n⟩ = some (q, ⟨rest, v, n⟩) := by
  induction q with
  | nil => rfl
  | cons b q ih =>
    show readings (q.length + 1) ⟨b :: (q ++ rest), v, n⟩ = _
    unfold readings getNextAudioReading
    dsimp only
    rw [ih]

theorem recordingThread_pushes (w : Nat) (rs : List ReadReply) (q : List Buffer) (v : Int)
    (n : Nat) (hrs : ∀ r ∈ rs, ¬ (r.frames < 0 ∧ r.recovered < 0)) :
    recordingThread w ⟨q, v, n⟩ rs = some ⟨q ++ rs.map (capturedBuffer n), v, n⟩ := by
  induction rs generalizing q with
  | nil =>
    unfold recordingThread
    simp
  | cons r rs ih =>
    have hr : (recordingThreadBody w ⟨q, v, n⟩ r).exited = false := by
      cases hx : (recordingThreadBody w ⟨q, v, n⟩ r).exited with
      | false => rfl
      | true =>
        exact absurd ((body_exited_iff w _ r).1 hx) (hrs r (List.mem_cons_self _ _))
    unfold recordingThread
    dsimp only
    rw [hr, body_state_continues w _ r hr]
    have hpush : sndQueuePush ⟨q, v, n⟩ (capturedBuffer n r) = ⟨q ++ [capturedBuffer n r], v, n⟩ :=
      rfl
    simp only [Bool.false_eq_true, if_false]
    rw [hpush, ih (q ++ [capturedBuffer n r]) (fun r1 h1 => hrs r1 (List.mem_cons_of_mem _ h1))]
    simp

theorem stepOp_frameSize (w : Nat) (s s1 : AudioRecorder) (o : Op)
    (h : stepOp w s o = some s1) : s1.playbackBufferSize = s.playbackBufferSize := by
  cases o with
  | capture r =>
    unfold stepOp at h
    dsimp only at h
    cases he : (recordingThreadBody w s r).exited with
    | true => rw [he] at h; simp at h
    | false =>
      rw [he] at h
      simp only [Bool.false_eq_true, if_false, Option.some.injEq] at h
      rw [← h, body_state_continues w s r he]
      rfl
  | nextReading =>
    unfold stepOp getNextAudioReading at h
    cases hq : s.sndQueue with
    | nil => rw [hq] at h; simp at h
    | cons b rest =>
      rw [hq] at h
      simp only [Option.map_some', Option.some.injEq] at h
      rw [← h]
  | setVol v m =>
    unfold stepOp at h
    simp only [Option.some.injEq] at h
    rw [← h]
    unfold setVolume
    split_ifs <;> rfl

theorem stepOp_buffers (w : Nat) (s s1 : AudioRecorder) (o : Op)
    (h : stepOp w s o = some s1)
    (hinv : ∀ b ∈ s.sndQueue, b.length = s.playbackBufferSize) :
    ∀ b ∈ s1.sndQueue, b.length = s1.playbackBufferSize := by
  have hsz := stepOp_frameSize w s s1 o h
  rw [hsz]
  cases o with
  | capture r =>
    unfold stepOp at h
    dsimp only at h
    cases he : (recordingThreadBody w s r).exited with
    | true => rw [he] at h; simp at h
    | false =>
      rw [he] at h
      simp only [Bool.false_eq_true, if_false, Option.some.injEq] at h
      rw [← h, body_state_continues w s r he]
      intro b hb
      unfold sndQueuePush at hb
      rcases List.mem_append.1 hb with hb1 | hb1
      · exact hinv b hb1
      · rw [List.mem_singleton.1 hb1]
        exact capturedBuffer_length s.playbackBufferSize r
  | nextReading =>
    unfold stepOp getNextAudioReading at h
    cases hq : s.sndQueue with
    | nil => rw [hq] at h; simp at h
    | cons b0 rest =>
      rw [hq] at h hinv
      simp only [Option.map_some', Option.some.injEq] at h
      rw [← h]
      intro b hb
      exact hinv b (List.mem_cons_of_mem _ hb)
  | setVol v m =>
    unfold stepOp at h
    simp only [Option.some.injEq] at h
    rw [← h]
    unfold setVolume
    split_ifs
    · exact hinv
    · exact hinv

theorem runOps_frameSize (w : Nat) (ops : List Op) (s s1 : AudioRecorder)
    (h : runOps w s ops = some s1) : s1.playbackBufferSize = s.playbackBufferSize := by
  induction ops generalizing s with
  | nil =>
    unfold runOps at h
    rw [← Option.some.inj h]
  | cons o os ih =>
    unfold runOps at h
    cases hs : stepOp w s o with
    | none => rw [hs] at h; cases h
    | some s2 =>
      rw [hs] at h
      rw [ih s2 h, stepOp_frameSize w s s2 o hs]

theorem runOps_buffers (w : Nat) (ops : List Op) (s s1 : AudioRecorder)
    (h : runOps w s ops = some s1)
    (hinv : ∀ b ∈ s.sndQueue, b.length = s.playbackBufferSize) :
    ∀ b ∈ s1.sndQueue, b.length = s1.playbackBufferSize := by
  induction ops generalizing s with
  | nil =>
    unfold runOps at h
    rw [← Option.some.inj h]
    exact hinv
  | cons o os ih =>
    unfold runOps at h
    cases hs : stepOp w s o with
    | none => rw [hs] at h; cases h
    | some s2 =>
      rw [hs] at h
      exact ih s2 h (stepOp_buffers w s s2 o hs hinv)

/-! ## Frame queue and capture loop -/

/-- Claim C3.  FIFO order of the frame queue: for every queue content `q` and
every list `bs` of buffers pushed in that order with `sndQueue.push`, the next
`len(q) + len(bs)` calls of `getNextAudioReading()` return the elements of `q`
followed by those of `bs`, in that order, and leave the queue empty; on a queue
with head `b` one call returns `b` and leaves the rest in its order; and the
capture loop, run on replies none of which ends the process, pushes the buffers
of its iterations this way, in the order of the iterations. -/
theorem getNextAudioReading_fifo (q bs : List Buffer) (v : Int) (n : Nat) :
    readings (q.length + bs.length) (bs.foldl sndQueuePush ⟨q, v, n⟩) =
        some (q ++ bs, ⟨[], v, n⟩) ∧
      (∀ (b : Buffer) (rest : List Buffer),
        getNextAudioReading ⟨b :: rest, v, n⟩ = some (b, ⟨rest, v, n⟩)) ∧
      (∀ (w : Nat) (rs : List ReadReply),
        (∀ r ∈ rs, ¬ (r.frames < 0 ∧ r.recovered < 0)) →
          recordingThread w ⟨q, v, n⟩ rs =
            some ((rs.map (capturedBuffer n)).foldl sndQueuePush ⟨q, v, n⟩)) := by
  refine ⟨?_, fun _ _ => rfl, ?_⟩
  · rw [foldl_sndQueuePush, ← List.length_append]
    have h := readings_append (q ++ bs) [] v n
    rwa [List.append_nil] at h
  · intro w rs hrs
    rw [foldl_sndQueuePush]
    exact recordingThread_pushes w rs q v n hrs

/-- Claim C4.  In every state reached from a constructed recorder by capture-loop
iterations, `getNextAudioReading()` calls on a non-empty queue and `setVolume`
calls, every buffer in the frame queue has length `getFrameSize()`, and so has
the buffer `getNextAudioReading()` returns there. -/
theorem queued_buffers_have_frame_size (w : Nat) (m : MixerReplies) (p : PcmOpenReplies)
    (s0 : AudioRecorder) (ops : List Op) (s : AudioRecorder)
    (hnew : (AudioRecorder.new w m p).recorder = some s0)
    (hrun : runOps w s0 ops = some s) :
    (∀ b ∈ s.sndQueue, b.length = getFrameSize s) ∧
      (∀ (b : Buffer) (s1 : AudioRecorder),
        getNextAudioReading s = some (b, s1) → b.length = getFrameSize s) := by
  have hq : ∀ b ∈ s0.sndQueue, b.length = s0.playbackBufferSize := by
    rw [new_recorder w m p s0 hnew]
    intro b hb
    cases hb
  have hinv := runOps_buffers w ops s0 s hrun hq
  refine ⟨hinv, ?_⟩
  intro b s1 hget
  unfold getNextAudioReading at hget
  cases hs : s.sndQueue with
  | nil => rw [hs] at hget; cases hget
  | cons b0 rest =>
    rw [hs] at hget
    have hb : b0 = b := (Prod.mk.inj (Option.some.inj hget)).1
    rw [← hb]
    exact hinv b0 (by rw [hs]; exact List.mem_cons_self _ _)

theorem queued_buffers_have_frame_size_witness :
    (AudioRecorder.new 64 mixerOk pcmSmall).recorder = some recorderSmall ∧
      runOps 64 recorderSmall sampleOps = some recorderAfterSampleOps ∧
      (∀ b ∈ recorderAfterSampleOps.sndQueue, b.length = getFrameSize recorderAfterSampleOps) ∧
      (∀ (b : Buffer) (s1 : AudioRecorder),
        getNextAudioReading recorderAfterSampleOps = some (b, s1) →
          b.length = getFrameSize recorderAfterSampleOps) :=
  ⟨by decide, by decide,
    queued_buffers_have_frame_size 64 mixerOk pcmSmall recorderSmall sampleOps
      recorderAfterSampleOps (by decide) (by decide)⟩

/-- Claim C7.  For every capture-loop iteration with read result `frames` and
recovery result `recovered`: the iteration ends the process exactly when both
are negative, and then the recorder (its queue included) is as before; in every
other case the queue is the old queue followed by the one new buffer, volume and
frame size being unchanged; `snd_pcm_recover` is called once when `frames` is
negative and not at all otherwise. -/
theorem recordingThreadBody_outcome (w : Nat) (s : AudioRecorder) (r : ReadReply) :
    ((recordingThreadBody w s r).exited = true ↔ (r.frames < 0 ∧ r.recovered < 0)) ∧
      ((recordingThreadBody w s r).exited = true → (recordingThreadBody w s r).state = s) ∧
      ((recordingThreadBody w s r).exited = false →
        (recordingThreadBody w s r).state.sndQueue = s.sndQueue ++ [capturedBuffer s.playbackBufferSize r] ∧
        (recordingThreadBody w s r).state.volume = s.volume ∧
        (recordingThreadBody w s r).state.playbackBufferSize = s.playbackBufferSize) ∧
      (recordingThreadBody w s r).pcmCalls.countP PcmCall.isRecover ≤ 1 ∧
      ((recordingThreadBody w s r).pcmCalls.countP PcmCall.isRecover = 1 ↔ r.frames < 0) := by
  refine ⟨body_exited_iff w s r, body_state_exited w s r, ?_, ?_, ?_⟩
  · intro he
    rw [body_state_continues w s r he]
    exact ⟨rfl, rfl, rfl⟩
  · rw [body_pcmCalls]
    split_ifs
    · exact Nat.le_of_eq (countP_read_recover _ _ _)
    · exact Nat.le_of_lt (Nat.lt_of_le_of_lt (Nat.le_of_eq (countP_read _)) Nat.zero_lt_one)
  · rw [body_pcmCalls]
    by_cases hf : r.frames < 0
    · rw [if_pos hf]
      exact ⟨fun _ => hf, fun _ => countP_read_recover _ _ _⟩
    · rw [if_neg hf, countP_read]
      constructor
      · intro h
        exact absurd h (by decide)
      · intro h
        exact absurd h hf

/-- Claim C8.  After a construction in which `snd_pcm_get_params` stores `n` in
`playbackBufferSize`, `getFrameSize()` returns `n`; no single operation changes
it; and it is still `n` after any sequence of `setVolume` calls, capture-loop
iterations and `getNextAudioReading()` calls. -/
theorem getFrameSize_constant (w : Nat) (m : MixerReplies) (p : PcmOpenReplies)
    (s0 : AudioRecorder) (unused n : Nat)
    (hnew : (AudioRecorder.new w m p).recorder = some s0)
    (hparams : p.getParams = some (unused, n)) :
    getFrameSize s0 = n ∧
      (∀ (s s1 : AudioRecorder) (o : Op), stepOp w s o = some s1 →
        getFrameSize s1 = getFrameSize s) ∧
      (∀ (ops : List Op) (s : AudioRecorder), runOps w s0 ops = some s →
        getFrameSize s = n) := by
  have h0 : getFrameSize s0 = n := by
    rw [new_recorder w m p s0 hnew, hparams]
    rfl
  refine ⟨h0, fun s s1 o h => stepOp_frameSize w s s1 o h, ?_⟩
  intro ops s hrun
  unfold getFrameSize at h0 ⊢
  rw [runOps_frameSize w ops s0 s hrun, h0]

theorem getFrameSize_constant_witness :
    (AudioRecorder.new 64 mixerOk pcmOk).recorder = some recorder80 ∧
      pcmOk.getParams = some (8192, 2048) ∧
      getFrameSize recorder80 = 2048 ∧
      runOps 64 recorder80 [Op.setVol 50 mixerOk, Op.capture ⟨2048, [], 0⟩, Op.nextReading] =
        some ⟨[], 50, 2048⟩ ∧
      getFrameSize ⟨[], 50, 2048⟩ = 2048 :=
  ⟨by decide, by decide,
    (getFrameSize_constant 64 mixerOk pcmOk recorder80 8192 2048 (by decide) (by decide)).1,
    by decide,
    (getFrameSize_constant 64 mixerOk pcmOk recorder80 8192 2048 (by decide) (by decide)).2.2
      [Op.setVol 50 mixerOk, Op.capture ⟨2048, [], 0⟩, Op.nextReading] ⟨[], 50, 2048⟩
      (by decide)⟩

/-- Claim C9, as stated, fails at a read of 0 frames: with a frame size of 2048
the iteration writes no diagnostic at all (the buffer is pushed and the process
goes on). -/
theorem zero_frames_not_logged :
    (0 : Int) ≤ 0 ∧ (0 : Int) < (recorder80.playbackBufferSize : Int) ∧
      (recordingThreadBody 64 recorder80 ⟨0, [], 0⟩).out = [] ∧
      (recordingThreadBody 64 recorder80 ⟨0, [], 0⟩).exited = false := by
  decide

/-- Claim C9, amended.  For every capture-loop iteration whose read returns a
frame count `frames` with 0 < frames < playbackBufferSize (playbackBufferSize
being at most `LONG_MAX`), the loop writes the short-read diagnostic and nothing
else, makes no recovery call, does not end the process, and pushes the buffer
onto the frame queue. -/
theorem short_read_logged_and_pushed (w : Nat) (s : AudioRecorder) (r : ReadReply)
    (h0 : 0 < r.frames) (h1 : r.frames < (s.playbackBufferSize : Int))
    (hfit : (s.playbackBufferSize : Int) ≤ LONG_MAX w) :
    (recordingThreadBody w s r).out = [Output.shortWrite s.playbackBufferSize r.frames] ∧
      (recordingThreadBody w s r).exited = false ∧
      (recordingThreadBody w s r).pcmCalls = [PcmCall.readi s.playbackBufferSize] ∧
      (recordingThreadBody w s r).state.sndQueue = s.sndQueue ++ [capturedBuffer s.playbackBufferSize r] := by
  have hf : ¬ r.frames < 0 := by omega
  have he : (recordingThreadBody w s r).exited = false := by
    cases hx : (recordingThreadBody w s r).exited with
    | false => rfl
    | true => exact absurd ((body_exited_iff w s r).1 hx).1 hf
  refine ⟨?_, he, ?_, ?_⟩
  · unfold recordingThreadBody
    dsimp only
    rw [toLong_of_fits w _ hfit]
    simp [hf, h0, h1]
  · rw [body_pcmCalls, if_neg hf]
  · rw [body_state_continues w s r he]
    rfl

theorem short_read_logged_and_pushed_witness :
    (0 : Int) < 2 ∧ (2 : Int) < (recorderSmall.playbackBufferSize : Int) ∧
      (recorderSmall.playbackBufferSize : Int) ≤ LONG_MAX 32 ∧
      (recordingThreadBody 32 recorderSmall ⟨2, [21, 22], 0⟩).out =
        [Output.shortWrite 4 2] ∧
      (recordingThreadBody 32 recorderSmall ⟨2, [21, 22], 0⟩).exited = false ∧
      (recordingThreadBody 32 recorderSmall ⟨2, [21, 22], 0⟩).pcmCalls = [PcmCall.readi 4] ∧
      (recordingThreadBody 32 recorderSmall ⟨2, [21, 22], 0⟩).state.sndQueue =
        [] ++ [[some 21, some 22, none, none]] :=
  ⟨by decide, by decide, by decide,
    short_read_logged_and_pushed 32 recorderSmall ⟨2, [21, 22], 0⟩ (by decide) (by decide)
      (by decide)⟩

end AudioRecorderModel
